import Mathlib

/-!
Verification development for the `ak_requests` library: a shallow embedding of
the rate-limiting / pacing logic of `RequestsSession` (src/ak_requests/request.py),
the retry-adapter configuration (src/ak_requests/adapters.py), and the bulk-get,
cookie, persistence and download helpers, together with theorems settling the
specification claims about them.

Time is modelled by an explicit logical clock (a rational number of seconds):
`time.sleep(d)` with `d > 0` advances the clock by exactly `d`, and `time.time()`
reads the clock.  Machine floats in the source are modelled as rationals.
-/

namespace AkRequests

/-- State of a `RequestsSession` relevant to pacing and rate limiting
(request.py:56-58 and request.py:84-88). `MIN_REQUEST_GAP` and `RAISE_ERRORS`
are class attributes in the source but are carried per-state here (tests mutate
them per instance). -/
structure RequestsSession where
  MIN_REQUEST_GAP : ℚ
  last_request_time : ℚ
  RAISE_ERRORS : Bool
  rate_limit_remaining : Option ℤ
  rate_limit_reset : ℚ
  retry_after : Option ℚ
deriving Repr, DecidableEq

/-- Default value of the `MIN_REQUEST_GAP` class attribute (request.py:56). -/
def MIN_REQUEST_GAP_default : ℚ := 9 / 10

/-- The rate-limit headers of a response that `update_rate_limit` inspects
(request.py:112-132); each field is the parsed integer value of the header
when the header is present. -/
structure RLHeaders where
  x_ratelimit_remaining : Option ℤ
  x_ratelimit_reset : Option ℤ
  retry_after_header : Option ℤ
deriving Repr, DecidableEq

/-- The clock after the `X-RateLimit` branch of `check_rate_limit`
(request.py:95-101): if a remaining count is known and `≤ 0`, sleep until
`rate_limit_reset` when that lies in the future. -/
def rate_limit_clock (s : RequestsSession) (now : ℚ) : ℚ :=
  match s.rate_limit_remaining with
  | some r =>
      if r ≤ 0 then
        let remaining_time := s.rate_limit_reset - now
        if 0 < remaining_time then now + remaining_time else now
      else now
  | none => now

/-- Method `check_rate_limit` (request.py:93-110): first the `X-RateLimit` wait, then
the `Retry-After` wait; `retry_after` is reset to `None` only inside the
`retry_wait > 0` branch.  Returns the updated session and the clock when the
method returns. -/
def check_rate_limit (s : RequestsSession) (now : ℚ) : RequestsSession × ℚ :=
  let now1 := rate_limit_clock s now
  match s.retry_after with
  | some t =>
      let retry_wait := t - now1
      if 0 < retry_wait then ({ s with retry_after := none }, now1 + retry_wait)
      else (s, now1)
  | none => (s, now1)

/-- The clock after the minimum-gap wait at the top of `get`
(request.py:196-198): `elapsed_time = now - last_request_time`; if
`elapsed_time < MIN_REQUEST_GAP`, sleep `MIN_REQUEST_GAP - elapsed_time`. -/
def paced_clock (s : RequestsSession) (now : ℚ) : ℚ :=
  let elapsed_time := now - s.last_request_time
  if elapsed_time < s.MIN_REQUEST_GAP then
    now + (s.MIN_REQUEST_GAP - elapsed_time)
  else now

/-- The wait-and-dispatch prefix of `get` (request.py:192-202): the gap sleep,
then `check_rate_limit`, then `last_request_time = time.time()` immediately
before the dispatch of the underlying GET.  Returns the session state at
dispatch and the dispatch timestamp. -/
def get_dispatch (s : RequestsSession) (now : ℚ) : RequestsSession × ℚ :=
  let r := check_rate_limit s (paced_clock s now)
  ({ r.1 with last_request_time := r.2 }, r.2)

/-- Method `update_rate_limit` (request.py:112-132): `rate_limit_remaining` and
`rate_limit_reset` are updated only when both `X-RateLimit-Remaining` and
`X-RateLimit-Reset` are present, with `rate_limit_reset = now + reset`;
`retry_after` is updated (to `now + value`) only when `Retry-After` is
present. -/
def update_rate_limit (s : RequestsSession) (now : ℚ) (h : RLHeaders) :
    RequestsSession :=
  let s1 :=
    match h.x_ratelimit_remaining, h.x_ratelimit_reset with
    | some rem, some rst =>
        { s with rate_limit_remaining := some rem
                 rate_limit_reset := now + (rst : ℚ) }
    | _, _ => s
  match h.retry_after_header with
  | some ra => { s1 with retry_after := some (now + (ra : ℚ)) }
  | none => s1

/- Basic clock lemmas. -/

theorem rate_limit_clock_le (s : RequestsSession) (now : ℚ) :
    now ≤ rate_limit_clock s now := by
  unfold rate_limit_clock
  rcases s.rate_limit_remaining with _ | r
  · simp
  · simp only
    split
    · split <;> linarith
    · linarith

theorem check_rate_limit_clock_le (s : RequestsSession) (now : ℚ) :
    now ≤ (check_rate_limit s now).2 := by
  unfold check_rate_limit
  have h1 := rate_limit_clock_le s now
  rcases s.retry_after with _ | t
  · simpa using h1
  · simp only
    split <;> simp <;> linarith

theorem paced_clock_ge (s : RequestsSession) (now : ℚ) :
    s.last_request_time + s.MIN_REQUEST_GAP ≤ paced_clock s now := by
  unfold paced_clock
  simp only
  split <;> linarith

theorem check_rate_limit_frame (s : RequestsSession) (now : ℚ) :
    (check_rate_limit s now).1.MIN_REQUEST_GAP = s.MIN_REQUEST_GAP ∧
    (check_rate_limit s now).1.last_request_time = s.last_request_time := by
  unfold check_rate_limit
  rcases s.retry_after with _ | t
  · simp
  · simp only
    split <;> simp

theorem check_rate_limit_retry_target (s : RequestsSession) (now t : ℚ)
    (h : s.retry_after = some t) : t ≤ (check_rate_limit s now).2 := by
  unfold check_rate_limit
  rw [h]
  simp only
  split <;> simp <;> linarith

theorem check_rate_limit_retry_state (s : RequestsSession) (now : ℚ) :
    (check_rate_limit s now).1.retry_after = none ∨
    (check_rate_limit s now).1.retry_after = s.retry_after := by
  cases hsa : s.retry_after with
  | none =>
      simp only [check_rate_limit, hsa]
      exact Or.inr trivial
  | some t =>
      simp only [check_rate_limit, hsa]
      split
      · exact Or.inl rfl
      · exact Or.inr hsa

theorem check_rate_limit_clears (s : RequestsSession) (now t : ℚ)
    (h : s.retry_after = some t) (hlt : rate_limit_clock s now < t) :
    (check_rate_limit s now).1.retry_after = none := by
  simp only [check_rate_limit, h]
  have hw : (0 : ℚ) < t - rate_limit_clock s now := by linarith
  rw [if_pos hw]

theorem update_rate_limit_retry (s : RequestsSession) (now : ℚ) (h : RLHeaders)
    (ra : ℤ) (hra : h.retry_after_header = some ra) :
    (update_rate_limit s now h).retry_after = some (now + (ra : ℚ)) := by
  unfold update_rate_limit
  rw [hra]

/-- Claim C1: for consecutive `get` calls on one session, consecutive dispatch
timestamps differ by at least `MIN_REQUEST_GAP`: the first conjunct states that
`last_request_time` is set to the dispatch timestamp, after all waits and
immediately before dispatch; the second that a second dispatch happens at least
`MIN_REQUEST_GAP` after the first; the third that if less than the gap has
elapsed since `last_request_time`, the call sleeps exactly the remaining
`MIN_REQUEST_GAP - elapsed`. -/
theorem C1_min_gap_between_dispatches (s : RequestsSession) (now1 now2 : ℚ) :
    (get_dispatch s now1).1.last_request_time = (get_dispatch s now1).2 ∧
    s.MIN_REQUEST_GAP ≤
      (get_dispatch (get_dispatch s now1).1 now2).2 - (get_dispatch s now1).2 ∧
    (now1 - s.last_request_time < s.MIN_REQUEST_GAP →
      paced_clock s now1 = now1 + (s.MIN_REQUEST_GAP - (now1 - s.last_request_time))) := by
  refine ⟨rfl, ?_, ?_⟩
  · set s1 := (get_dispatch s now1).1 with hs1
    have hlast : s1.last_request_time = (get_dispatch s now1).2 := rfl
    have hgap : s1.MIN_REQUEST_GAP = s.MIN_REQUEST_GAP := by
      have := (check_rate_limit_frame s (paced_clock s now1)).1
      simpa [hs1, get_dispatch] using this
    have h1 : s1.last_request_time + s1.MIN_REQUEST_GAP ≤ paced_clock s1 now2 :=
      paced_clock_ge s1 now2
    have h2 : paced_clock s1 now2 ≤ (check_rate_limit s1 (paced_clock s1 now2)).2 :=
      check_rate_limit_clock_le s1 (paced_clock s1 now2)
    have h3 : (get_dispatch s1 now2).2 = (check_rate_limit s1 (paced_clock s1 now2)).2 := rfl
    rw [h3]
    rw [hlast, hgap] at h1
    linarith
  · intro hlt
    unfold paced_clock
    simp only
    rw [if_pos hlt]

/-- Claim C4: after observing a response with `Retry-After: N` at time `tObs`,
the next `get` dispatches no earlier than `tObs + N`; the stored `retry_after`
is afterwards either cleared or still exactly `tObs + N` (never replaced
without a new header); and whenever an actual wait was needed (the clock at the
retry check was still before `tObs + N`), the state is cleared after being
honored. -/
theorem C4_retry_after_honored (s : RequestsSession) (h : RLHeaders) (N : ℤ)
    (tObs now : ℚ) (hra : h.retry_after_header = some N) :
    tObs + (N : ℚ) ≤ (get_dispatch (update_rate_limit s tObs h) now).2 ∧
    ((get_dispatch (update_rate_limit s tObs h) now).1.retry_after = none ∨
     (get_dispatch (update_rate_limit s tObs h) now).1.retry_after =
       some (tObs + (N : ℚ))) ∧
    (rate_limit_clock (update_rate_limit s tObs h)
        (paced_clock (update_rate_limit s tObs h) now) < tObs + (N : ℚ) →
      (get_dispatch (update_rate_limit s tObs h) now).1.retry_after = none) := by
  set s2 := update_rate_limit s tObs h with hs2
  have hret : s2.retry_after = some (tObs + (N : ℚ)) :=
    update_rate_limit_retry s tObs h N hra
  have hdisp : (get_dispatch s2 now).2 =
      (check_rate_limit s2 (paced_clock s2 now)).2 := rfl
  have hstate : (get_dispatch s2 now).1.retry_after =
      (check_rate_limit s2 (paced_clock s2 now)).1.retry_after := rfl
  refine ⟨?_, ?_, ?_⟩
  · rw [hdisp]
    exact check_rate_limit_retry_target s2 (paced_clock s2 now) _ hret
  · rw [hstate]
    rcases check_rate_limit_retry_state s2 (paced_clock s2 now) with hc | hc
    · exact Or.inl hc
    · exact Or.inr (hc.trans hret)
  · intro hlt
    rw [hstate]
    exact check_rate_limit_clears s2 (paced_clock s2 now) _ hret hlt

/-- A session state with no rate-limit information, used to instantiate the
claim theorems on concrete inputs. -/
def sampleSession : RequestsSession :=
  { MIN_REQUEST_GAP := 1
    last_request_time := 0
    RAISE_ERRORS := true
    rate_limit_remaining := none
    rate_limit_reset := 0
    retry_after := none }

/-- Response headers carrying only `Retry-After: 3`. -/
def sampleRetryHeaders : RLHeaders :=
  { x_ratelimit_remaining := none
    x_ratelimit_reset := none
    retry_after_header := some 3 }

theorem C1_min_gap_between_dispatches_witness :
    (0 : ℚ) - sampleSession.last_request_time < sampleSession.MIN_REQUEST_GAP ∧
    paced_clock sampleSession 0 =
      0 + (sampleSession.MIN_REQUEST_GAP - ((0 : ℚ) - sampleSession.last_request_time)) :=
  ⟨by simp [sampleSession],
   (C1_min_gap_between_dispatches sampleSession 0 0).2.2 (by simp [sampleSession])⟩

theorem C4_retry_after_honored_witness :
    sampleRetryHeaders.retry_after_header = some 3 ∧
    (0 : ℚ) + ((3 : ℤ) : ℚ) ≤
      (get_dispatch (update_rate_limit sampleSession 0 sampleRetryHeaders) 0).2 :=
  ⟨rfl, (C4_retry_after_honored sampleSession sampleRetryHeaders 3 0 0 rfl).1⟩

/-- Claim C8: `update_rate_limit` changes the rate-limit state only as the
headers dictate: `rate_limit_remaining`/`rate_limit_reset` change only when
both `X-RateLimit-Remaining` and `X-RateLimit-Reset` are present (and then
`rate_limit_reset = now + reset`), `retry_after` changes only when
`Retry-After` is present (and then becomes `now + value`); absent headers
leave the corresponding fields, and the pacing fields, unchanged. -/
theorem C8_update_rate_limit_frame (s : RequestsSession) (now : ℚ) (h : RLHeaders) :
    ((h.x_ratelimit_remaining = none ∨ h.x_ratelimit_reset = none) →
      (update_rate_limit s now h).rate_limit_remaining = s.rate_limit_remaining ∧
      (update_rate_limit s now h).rate_limit_reset = s.rate_limit_reset) ∧
    (h.retry_after_header = none →
      (update_rate_limit s now h).retry_after = s.retry_after) ∧
    (∀ rem rst, h.x_ratelimit_remaining = some rem → h.x_ratelimit_reset = some rst →
      (update_rate_limit s now h).rate_limit_remaining = some rem ∧
      (update_rate_limit s now h).rate_limit_reset = now + (rst : ℚ)) ∧
    (∀ ra, h.retry_after_header = some ra →
      (update_rate_limit s now h).retry_after = some (now + (ra : ℚ))) ∧
    (update_rate_limit s now h).MIN_REQUEST_GAP = s.MIN_REQUEST_GAP ∧
    (update_rate_limit s now h).last_request_time = s.last_request_time := by
  obtain ⟨hrem, hrst, hra⟩ := h
  rcases hrem with _ | rem <;> rcases hrst with _ | rst <;> rcases hra with _ | ra <;>
    simp [update_rate_limit]

theorem C8_update_rate_limit_frame_witness :
    sampleRetryHeaders.x_ratelimit_remaining = none ∧
    sampleRetryHeaders.retry_after_header = some 3 ∧
    (update_rate_limit sampleSession 0 sampleRetryHeaders).rate_limit_remaining =
      sampleSession.rate_limit_remaining ∧
    (update_rate_limit sampleSession 0 sampleRetryHeaders).retry_after =
      some ((0 : ℚ) + ((3 : ℤ) : ℚ)) := by
  have hc := C8_update_rate_limit_frame sampleSession 0 sampleRetryHeaders
  exact ⟨rfl, rfl, (hc.1 (Or.inl rfl)).1, hc.2.2.2.1 3 rfl⟩

/-- Python `str.lower()` on a string, modelled character by character. -/
def py_lower (s : String) : String := ⟨s.data.map Char.toLower⟩

/-- Method `downloadble` (request.py:352-360): the content-type check on the HEAD
response headers; `none` models an absent `content-type` header. -/
def downloadble (content_type : Option String) : Bool :=
  match content_type with
  | none => true
  | some ct => if py_lower ct ∈ (["text", "html"] : List String) then false else true

/-- Claim C10: `downloadble` returns `false` exactly when the content-type
header is present and its lowercasing is exactly `"text"` or `"html"`; in
particular an absent header and the typical HTML content type
`"text/html; charset=utf-8"` are treated as downloadable. -/
theorem C10_downloadble_characterization :
    (∀ content_type : Option String,
      downloadble content_type = false ↔
        ∃ ct, content_type = some ct ∧
          (py_lower ct = "text" ∨ py_lower ct = "html")) ∧
    downloadble none = true ∧
    downloadble (some "text/html; charset=utf-8") = true := by
  refine ⟨?_, rfl, by decide⟩
  intro content_type
  rcases content_type with _ | ct
  · simp [downloadble]
  · simp only [downloadble, List.mem_cons, List.mem_singleton]
    constructor
    · intro hf
      split at hf
      · next hmem => exact ⟨ct, rfl, by simpa using hmem⟩
      · exact absurd hf (by simp)
    · rintro ⟨ct2, hct2, hmem⟩
      obtain rfl : ct = ct2 := by injection hct2
      rw [if_pos (by simpa using hmem)]

/-- Retry policy configuration, mirroring the `urllib3` `Retry` fields set by
the adapter (adapters.py:10-14). -/
structure Retry where
  total : Nat
  backoff_factor : ℚ
  status_forcelist : List Nat
deriving Repr, DecidableEq

/-- The retry policy built by `TimeoutHTTPAdapter.__init__` (adapters.py:9-19):
`Retry(total=max_retries, backoff_factor=0.5, status_forcelist=[429, 500, 502,
503, 504])`. -/
def TimeoutHTTPAdapter_retry (max_retries : ℕ) : Retry :=
  { total := max_retries
    backoff_factor := 1 / 2
    status_forcelist := [429, 500, 502, 503, 504] }

/-- Outcome of dispatching one logical request through the retry transport:
a response after `attempts` attempts, exhaustion of the retry budget after
`attempts` attempts (the `RetryExhausted` error kind of spec section 7), or a
plain transport failure (the `TransportError` error kind of spec section 7). -/
inductive RetryOutcome where
  | success (attempts : ℕ) (status : ℕ)
  | retryExhausted (attempts : ℕ)
  | transportFailure (msg : String)
deriving Repr, DecidableEq

/-- Backoff delay taken before the retry that follows attempt `attempt`, per
spec section 4.1: `backoff_factor * 2 ^ (attempt - 1)`. -/
def backoff_delay (pol : Retry) (attempt : ℕ) : ℚ :=
  pol.backoff_factor * 2 ^ (attempt - 1)

/-- Modelled from the spec: the status-retry engine of the HTTP transport
(the `urllib3` `Retry` machinery), which is not part of this repository's
sources — spec section 4.1: "if the response status is in the configured
retry-status set, retry up to `total` times ... When retries are exhausted,
surfaces a `RetryExhausted` error".  `status k` is the HTTP status received by
attempt number `k` (1-based); `fuel` is the remaining retry budget. -/
def retry_run (pol : Retry) (status : ℕ → ℕ) : ℕ → ℕ → RetryOutcome
  | 0, k =>
      if status k ∈ pol.status_forcelist then .retryExhausted k
      else .success k (status k)
  | fuel + 1, k =>
      if status k ∈ pol.status_forcelist then retry_run pol status fuel (k + 1)
      else .success k (status k)

/-- Dispatch of one logical request: attempt 1 with the full retry budget. -/
def retry_dispatch (pol : Retry) (status : ℕ → ℕ) : RetryOutcome :=
  retry_run pol status pol.total 1

theorem retry_run_exhaust (pol : Retry) (status : ℕ → ℕ)
    (hall : ∀ k, status k ∈ pol.status_forcelist) (fuel : ℕ) :
    ∀ k, retry_run pol status fuel k = .retryExhausted (k + fuel) := by
  induction fuel with
  | zero => intro k; simp [retry_run, hall k]
  | succ n ih =>
      intro k
      rw [retry_run, if_pos (hall k), ih (k + 1)]
      congr 1
      omega

/-- Claim C3: with the adapter configured at `max_retries = n` and a server
that keeps answering a status in the retry set (500), the transport performs
exactly `n + 1` attempts (retries + 1) and then fails with `RetryExhausted`
(3 attempts for `n = 2`); the backoff delays between attempts are strictly
increasing; and `RetryExhausted` is distinguishable from a plain transport
failure. -/
theorem C3_retry_exhaustion (n : ℕ) (status : ℕ → ℕ)
    (hall : ∀ k, status k = 500) :
    retry_dispatch (TimeoutHTTPAdapter_retry n) status =
      .retryExhausted (n + 1) ∧
    retry_dispatch (TimeoutHTTPAdapter_retry 2) status = .retryExhausted 3 ∧
    (500 : ℕ) ∈ (TimeoutHTTPAdapter_retry n).status_forcelist ∧
    (∀ k, 1 ≤ k →
      backoff_delay (TimeoutHTTPAdapter_retry n) k <
        backoff_delay (TimeoutHTTPAdapter_retry n) (k + 1)) ∧
    (∀ a msg, RetryOutcome.retryExhausted a ≠ RetryOutcome.transportFailure msg) := by
  have hmem : ∀ m, ∀ k, status k ∈ (TimeoutHTTPAdapter_retry m).status_forcelist := by
    intro m k
    rw [hall k]
    simp [TimeoutHTTPAdapter_retry]
  have hgen : ∀ m, retry_dispatch (TimeoutHTTPAdapter_retry m) status =
      .retryExhausted (m + 1) := by
    intro m
    unfold retry_dispatch
    rw [retry_run_exhaust _ _ (hmem m) _ 1]
    simp [TimeoutHTTPAdapter_retry, Nat.add_comm]
  refine ⟨hgen n, hgen 2, ?_, ?_, ?_⟩
  · simp [TimeoutHTTPAdapter_retry]
  · intro k hk
    unfold backoff_delay TimeoutHTTPAdapter_retry
    simp only
    have h2 : (2 : ℚ) ^ (k - 1) < 2 ^ (k + 1 - 1) := by
      apply pow_lt_pow_right₀ one_lt_two
      omega
    have hpos : (0 : ℚ) < 1 / 2 := by norm_num
    exact mul_lt_mul_of_pos_left h2 hpos
  · intro a msg hne
    exact RetryOutcome.noConfusion hne

theorem C3_retry_exhaustion_witness :
    (∀ k : ℕ, (fun _ : ℕ => 500) k = 500) ∧
    retry_dispatch (TimeoutHTTPAdapter_retry 2) (fun _ => 500) =
      .retryExhausted 3 :=
  ⟨fun _ => rfl, (C3_retry_exhaustion 2 (fun _ => 500) (fun _ => rfl)).2.1⟩

/-- Exception raised by a failing GET (`requests.RequestException`). -/
inductive ReqException where
  | requestException (msg : String)
deriving Repr, DecidableEq

/-- Result behaviour of `get` (request.py:180-211) for one dispatched request:
a successful dispatch returns the response; on `RequestException` the session
re-raises when `RAISE_ERRORS` is set (request.py:213-217) and otherwise
returns `None` (request.py:209-211).  `outcome` is the network outcome of the
dispatch. -/
def get_result {α : Type} (raise_errors : Bool)
    (outcome : Except ReqException α) : Except ReqException (Option α) :=
  match outcome with
  | .ok v => .ok (some v)
  | .error e => if raise_errors then .error e else .ok none

/-- The value recorded in the result dict for one dispatch outcome when errors
are not raised: the response, or `None` for a failure. -/
def stored_result {α : Type} (outcome : Except ReqException α) : Option α :=
  match outcome with
  | .ok v => some v
  | .error _ => none

/-- The loop of `bulk_get` (request.py:233-241): iterate over the shuffled
list, storing each result in the dict `req` keyed by URL (so a later write to
the same URL overwrites an earlier one); an exception raised by `get` aborts
the loop when `RAISE_ERRORS` is set and otherwise records `None` for that URL.
`env u k` is the network outcome of the `k`-th dispatched GET of the batch
(0-based) when its URL is `u`. -/
def bulk_get_loop {α : Type} (raise_errors : Bool)
    (env : String → ℕ → Except ReqException α) :
    List String → ℕ → (String → Option (Option α)) →
      Except ReqException (String → Option (Option α))
  | [], _, req => .ok req
  | url :: rest, k, req =>
      match get_result raise_errors (env url k) with
      | .ok v =>
          bulk_get_loop raise_errors env rest (k + 1)
            (fun u => if u = url then some v else req u)
      | .error e =>
          if raise_errors then .error e
          else
            bulk_get_loop raise_errors env rest (k + 1)
              (fun u => if u = url then some none else req u)

/-- Method `bulk_get` (request.py:219-243): `perm` is the shuffled copy of `urls`
produced by `random.shuffle` (request.py:230-231); the requests are dispatched
in `perm` order and the results are read back from the dict in input order
(request.py:243). -/
def bulk_get {α : Type} (raise_errors : Bool)
    (env : String → ℕ → Except ReqException α) (urls perm : List String) :
    Except ReqException (List (Option α)) :=
  (bulk_get_loop raise_errors env perm 0 (fun _ => none)).map
    (fun req => urls.map (fun u => (req u).getD none))

/-- Index of the last occurrence of `u` in `l`, if any. -/
def last_occ : List String → String → Option ℕ
  | [], _ => none
  | x :: xs, u =>
      match last_occ xs u with
      | some j => some (j + 1)
      | none => if x = u then some 0 else none

theorem last_occ_mem (u : String) : ∀ l : List String, u ∈ l →
    ∃ j, last_occ l u = some j := by
  intro l
  induction l with
  | nil => intro h; cases h
  | cons x xs ih =>
      intro hmem
      cases hrec : last_occ xs u with
      | some j => exact ⟨j + 1, by simp [last_occ, hrec]⟩
      | none =>
          have hx : x = u := by
            rcases List.mem_cons.mp hmem with h | h
            · exact h.symm
            · obtain ⟨j, hj⟩ := ih h
              rw [hj] at hrec
              cases hrec
          exact ⟨0, by simp [last_occ, hrec, hx]⟩

theorem last_occ_get (u : String) : ∀ (l : List String) (j : ℕ),
    last_occ l u = some j → l.get? j = some u := by
  intro l
  induction l with
  | nil => intro j h; cases h
  | cons x xs ih =>
      intro j h
      cases hrec : last_occ xs u with
      | some j0 =>
          rw [last_occ, hrec] at h
          obtain rfl : j0 + 1 = j := by injection h
          simpa using ih j0 hrec
      | none =>
          rw [last_occ, hrec] at h
          by_cases hx : x = u
          · rw [if_pos hx] at h
            obtain rfl : (0 : ℕ) = j := by injection h
            simp [hx]
          · rw [if_neg hx] at h
            cases h

theorem last_occ_after (u : String) : ∀ (l : List String) (j : ℕ),
    last_occ l u = some j → ∀ m, j < m → l.get? m ≠ some u := by
  intro l
  induction l with
  | nil => intro j h; cases h
  | cons x xs ih =>
      intro j h m hm
      cases hrec : last_occ xs u with
      | some j0 =>
          rw [last_occ, hrec] at h
          obtain rfl : j0 + 1 = j := by injection h
          cases m with
          | zero => omega
          | succ m0 =>
              simpa using ih j0 hrec m0 (by omega)
      | none =>
          rw [last_occ, hrec] at h
          by_cases hx : x = u
          · rw [if_pos hx] at h
            obtain rfl : (0 : ℕ) = j := by injection h
            cases m with
            | zero => omega
            | succ m0 =>
                intro hget
                have humem : u ∈ xs := List.get?_mem (by simpa using hget)
                obtain ⟨j2, hj2⟩ := last_occ_mem u xs humem
                rw [hj2] at hrec
                cases hrec
          · rw [if_neg hx] at h
            cases h

theorem get_result_false {α : Type} (outcome : Except ReqException α) :
    get_result false outcome = .ok (stored_result outcome) := by
  cases outcome <;> simp [get_result, stored_result]

theorem bulk_get_loop_false {α : Type}
    (env : String → ℕ → Except ReqException α) :
    ∀ (perm : List String) (k : ℕ) (req : String → Option (Option α)),
      ∃ req2, bulk_get_loop false env perm k req = .ok req2 ∧
        ∀ u, req2 u =
          match last_occ perm u with
          | some j => some (stored_result (env u (k + j)))
          | none => req u := by
  intro perm
  induction perm with
  | nil =>
      intro k req
      exact ⟨req, rfl, fun u => by simp [last_occ]⟩
  | cons url rest ih =>
      intro k req
      obtain ⟨req2, hrun, hval⟩ := ih (k + 1)
        (fun u => if u = url then some (stored_result (env url k)) else req u)
      refine ⟨req2, ?_, ?_⟩
      · rw [bulk_get_loop, get_result_false]
        exact hrun
      · intro u
        cases hrec : last_occ rest u with
        | some j =>
            have harith : k + 1 + j = k + (j + 1) := by omega
            have hv2 : req2 u = some (stored_result (env u (k + 1 + j))) := by
              rw [hval u, hrec]
            simp only [last_occ, hrec]
            rw [hv2, harith]
        | none =>
            have hv2 : req2 u =
                if u = url then some (stored_result (env url k)) else req u := by
              rw [hval u, hrec]
            by_cases hu : u = url
            · subst hu
              rw [hv2, if_pos rfl]
              simp [last_occ, hrec]
            · have hu2 : ¬(url = u) := fun h => hu h.symm
              rw [hv2, if_neg hu]
              simp [last_occ, hrec, hu2]

theorem bulk_get_loop_ok {α : Type} (raise_errors : Bool)
    (env : String → ℕ → Except ReqException α) (f : String → ℕ → α)
    (henv : ∀ u k, env u k = .ok (f u k)) :
    ∀ (perm : List String) (k : ℕ) (req : String → Option (Option α)),
      ∃ req2, bulk_get_loop raise_errors env perm k req = .ok req2 ∧
        ∀ u, req2 u =
          match last_occ perm u with
          | some j => some (some (f u (k + j)))
          | none => req u := by
  intro perm
  induction perm with
  | nil =>
      intro k req
      exact ⟨req, rfl, fun u => by simp [last_occ]⟩
  | cons url rest ih =>
      intro k req
      obtain ⟨req2, hrun, hval⟩ := ih (k + 1)
        (fun u => if u = url then some (some (f url k)) else req u)
      refine ⟨req2, ?_, ?_⟩
      · rw [bulk_get_loop]
        rw [show get_result raise_errors (env url k) = .ok (some (f url k)) by
          rw [henv url k]; rfl]
        exact hrun
      · intro u
        cases hrec : last_occ rest u with
        | some j =>
            have harith : k + 1 + j = k + (j + 1) := by omega
            have hv2 : req2 u = some (some (f u (k + 1 + j))) := by
              rw [hval u, hrec]
            simp only [last_occ, hrec]
            rw [hv2, harith]
        | none =>
            have hv2 : req2 u =
                if u = url then some (some (f url k)) else req u := by
              rw [hval u, hrec]
            by_cases hu : u = url
            · subst hu
              rw [hv2, if_pos rfl]
              simp [last_occ, hrec]
            · have hu2 : ¬(url = u) := fun h => hu h.symm
              rw [hv2, if_neg hu]
              simp [last_occ, hrec, hu2]

theorem bulk_get_loop_abort {α : Type}
    (env : String → ℕ → Except ReqException α) :
    ∀ (perm : List String) (k : ℕ) (req : String → Option (Option α))
      (j : ℕ) (u : String) (e : ReqException),
      perm.get? j = some u → env u (k + j) = .error e →
      (∀ m u2, m < j → perm.get? m = some u2 → (env u2 (k + m)).isOk = true) →
      bulk_get_loop true env perm k req = .error e := by
  intro perm
  induction perm with
  | nil =>
      intro k req j u e hget
      simp at hget
  | cons url rest ih =>
      intro k req j u e hget herr hok
      cases j with
      | zero =>
          have hd : url = u := by simpa using hget
          rw [Nat.add_zero] at herr
          rw [bulk_get_loop, hd]
          rw [show get_result true (env u k) = .error e by rw [herr]; rfl]
          rfl
      | succ j0 =>
          have hok0 := hok 0 url (by omega) (by simp)
          rw [Nat.add_zero] at hok0
          cases hv : env url k with
          | error e2 =>
              rw [hv] at hok0
              simp [Except.isOk, Except.toBool] at hok0
          | ok v =>
              rw [bulk_get_loop]
              rw [show get_result true (env url k) = .ok (some v) by
                rw [hv]; rfl]
              apply ih (k + 1) _ j0 u e
              · simpa using hget
              · rw [show k + 1 + j0 = k + (j0 + 1) by omega]
                exact herr
              · intro m u2 hm hgm
                have := hok (m + 1) u2 (by omega) (by simpa using hgm)
                rw [show k + 1 + m = k + (m + 1) by omega]
                exact this

/-- Claim C2: for every list of URLs and every shuffled dispatch order (any
permutation of the input), when every dispatch succeeds `bulk_get` returns a
list of the same length as the input whose `i`-th element is the response of a
dispatch of the `i`-th input URL — results follow the input order regardless
of the internal dispatch order, and one GET is dispatched per input element
(the dispatch list is a permutation of the input, hence of its length). -/
theorem C2_bulk_get_input_order {α : Type} (f : String → ℕ → α)
    (env : String → ℕ → Except ReqException α) (urls perm : List String)
    (raise_errors : Bool)
    (henv : ∀ u k, env u k = .ok (f u k)) (hperm : perm.Perm urls) :
    ∃ l, bulk_get raise_errors env urls perm = .ok l ∧
      l.length = urls.length ∧
      perm.length = urls.length ∧
      ∀ i u, urls.get? i = some u →
        ∃ j, perm.get? j = some u ∧ l.get? i = some (some (f u j)) := by
  obtain ⟨req2, hrun, hval⟩ :=
    bulk_get_loop_ok raise_errors env f henv perm 0 (fun _ => none)
  refine ⟨urls.map (fun u => (req2 u).getD none), ?_, by simp,
    hperm.length_eq, ?_⟩
  · unfold bulk_get
    rw [hrun]
    rfl
  · intro i u hget
    have hmem : u ∈ urls := List.get?_mem hget
    have hmem2 : u ∈ perm := (hperm.mem_iff).mpr hmem
    obtain ⟨j, hj⟩ := last_occ_mem u perm hmem2
    refine ⟨j, last_occ_get u perm j hj, ?_⟩
    have hv2 : req2 u = some (some (f u (0 + j))) := by
      rw [hval u, hj]
    rw [Nat.zero_add] at hv2
    rw [List.get?_map, hget]
    simp [hv2]

theorem C2_bulk_get_input_order_witness :
    (["b", "a"] : List String).Perm ["a", "b"] ∧
    ∃ l, bulk_get true (fun _ k => Except.ok k) ["a", "b"] ["b", "a"] = .ok l ∧
      l.length = (["a", "b"] : List String).length := by
  have h := C2_bulk_get_input_order (fun _ k => k) (fun _ k => Except.ok k)
    ["a", "b"] ["b", "a"] true (fun _ _ => rfl) (by decide)
  obtain ⟨l, h1, h2, _, _⟩ := h
  exact ⟨by decide, l, h1, h2⟩

/-- Claim C9: when the input list contains the same URL more than once,
`bulk_get` still issues one GET per list element and returns a list of the
input's length, but the results are read back from a dict keyed by URL: every
output position of a duplicated URL holds the same response, namely the one of
the most recently dispatched occurrence of that URL (the last occurrence in
the shuffled dispatch order). -/
theorem C9_bulk_get_duplicates {α : Type} (f : String → ℕ → α)
    (env : String → ℕ → Except ReqException α) (urls perm : List String)
    (raise_errors : Bool)
    (henv : ∀ u k, env u k = .ok (f u k)) (hperm : perm.Perm urls) :
    ∃ l, bulk_get raise_errors env urls perm = .ok l ∧
      l.length = urls.length ∧
      perm.length = urls.length ∧
      (∀ i1 i2 u, urls.get? i1 = some u → urls.get? i2 = some u →
        l.get? i1 = l.get? i2) ∧
      (∀ i u, urls.get? i = some u →
        ∃ j, last_occ perm u = some j ∧ perm.get? j = some u ∧
          (∀ m, j < m → perm.get? m ≠ some u) ∧
          l.get? i = some (some (f u j))) := by
  obtain ⟨req2, hrun, hval⟩ :=
    bulk_get_loop_ok raise_errors env f henv perm 0 (fun _ => none)
  refine ⟨urls.map (fun u => (req2 u).getD none), ?_, by simp,
    hperm.length_eq, ?_, ?_⟩
  · unfold bulk_get
    rw [hrun]
    rfl
  · intro i1 i2 u hget1 hget2
    rw [List.get?_map, List.get?_map, hget1, hget2]
  · intro i u hget
    have hmem : u ∈ urls := List.get?_mem hget
    have hmem2 : u ∈ perm := (hperm.mem_iff).mpr hmem
    obtain ⟨j, hj⟩ := last_occ_mem u perm hmem2
    refine ⟨j, hj, last_occ_get u perm j hj, last_occ_after u perm j hj, ?_⟩
    have hv2 : req2 u = some (some (f u (0 + j))) := by
      rw [hval u, hj]
    rw [Nat.zero_add] at hv2
    rw [List.get?_map, hget]
    simp [hv2]

theorem C9_bulk_get_duplicates_witness :
    (["a", "a", "b"] : List String).Perm ["a", "b", "a"] ∧
    ∃ l, bulk_get false (fun _ k => Except.ok k) ["a", "b", "a"]
        ["a", "a", "b"] = .ok l ∧
      l.get? 0 = l.get? 2 := by
  have h := C9_bulk_get_duplicates (fun _ k => k) (fun _ k => Except.ok k)
    ["a", "b", "a"] ["a", "a", "b"] false (fun _ _ => rfl) (by decide)
  obtain ⟨l, h1, _, _, hdup, _⟩ := h
  exact ⟨by decide, l, h1, hdup 0 2 "a" rfl rfl⟩

/-- Claim C7: with `RAISE_ERRORS` false, `bulk_get` always completes the whole
batch, and the output position of each target whose (most recent) dispatch
failed holds a `None` placeholder (`stored_result` is `none` exactly for a
failed dispatch); with `RAISE_ERRORS` true, the first failing dispatch makes
`bulk_get` raise that exception, and the result does not depend on the
outcomes of any later dispatch (the remainder of the batch is aborted). -/
theorem C7_bulk_get_error_modes {α : Type}
    (env : String → ℕ → Except ReqException α) (urls perm : List String)
    (hperm : perm.Perm urls) :
    (∃ l, bulk_get false env urls perm = .ok l ∧
      l.length = urls.length ∧
      ∀ i u, urls.get? i = some u →
        ∃ j, last_occ perm u = some j ∧
          l.get? i = some (stored_result (env u j))) ∧
    (∀ j u e, perm.get? j = some u → env u j = .error e →
      (∀ m u2, m < j → perm.get? m = some u2 → (env u2 m).isOk = true) →
      ∀ env2 : String → ℕ → Except ReqException α,
        (∀ u2 m, m ≤ j → env2 u2 m = env u2 m) →
        bulk_get true env2 urls perm = .error e) := by
  constructor
  · obtain ⟨req2, hrun, hval⟩ := bulk_get_loop_false env perm 0 (fun _ => none)
    refine ⟨urls.map (fun u => (req2 u).getD none), ?_, by simp, ?_⟩
    · unfold bulk_get
      rw [hrun]
      rfl
    · intro i u hget
      have hmem : u ∈ urls := List.get?_mem hget
      have hmem2 : u ∈ perm := (hperm.mem_iff).mpr hmem
      obtain ⟨j, hj⟩ := last_occ_mem u perm hmem2
      refine ⟨j, hj, ?_⟩
      have hv2 : req2 u = some (stored_result (env u (0 + j))) := by
        rw [hval u, hj]
      rw [Nat.zero_add] at hv2
      rw [List.get?_map, hget]
      simp [hv2]
  · intro j u e hget herr hok env2 hagree
    have habort : bulk_get_loop true env2 perm 0 (fun _ => none) = .error e := by
      apply bulk_get_loop_abort env2 perm 0 _ j u e hget
      · rw [Nat.zero_add, hagree u j (le_refl j)]
        exact herr
      · intro m u2 hm hgm
        rw [Nat.zero_add, hagree u2 m (by omega)]
        exact hok m u2 hm hgm
    unfold bulk_get
    rw [habort]
    rfl

theorem C7_bulk_get_error_modes_witness :
    (["a"] : List String).Perm ["a"] ∧
    bulk_get true
      (fun _ _ => (Except.error (ReqException.requestException "boom") :
        Except ReqException ℕ)) ["a"] ["a"] =
      .error (ReqException.requestException "boom") := by
  have h := C7_bulk_get_error_modes
    (fun _ _ => (Except.error (ReqException.requestException "boom") :
      Except ReqException ℕ)) ["a"] ["a"] (by decide)
  refine ⟨by decide, ?_⟩
  exact h.2 0 "a" (ReqException.requestException "boom") rfl rfl
    (fun m u2 hm _ => absurd hm (by omega)) _ (fun _ _ _ => rfl)

/-- Cookie record (data.py): a name/value pair. -/
structure Cookie where
  name : String
  value : String
deriving Repr, DecidableEq

/-- Python dict-style insertion into an association list: overwrite the value
of an existing key, else append the new pair at the end. -/
def dict_set (d : List (String × String)) (k v : String) :
    List (String × String) :=
  if d.any (fun p => p.1 = k) then
    d.map (fun p => if p.1 = k then (k, v) else p)
  else d ++ [(k, v)]

/-- Python dict.update / cookie-jar update: merge the pairs of the second list
into the first, last write wins on duplicate keys. -/
def dict_update (d new : List (String × String)) : List (String × String) :=
  new.foldl (fun acc p => dict_set acc p.1 p.2) d

/-- State of a session that the persistence round-trip claim is about: the
header map, the cookie jar, and the retry configuration of the mounted
adapters (request.py:414-447). -/
structure SessionPickleState where
  headers : List (String × String)
  cookies : List (String × String)
  adapters : Retry
deriving Repr, DecidableEq

/-- Modelled from the spec: the object serialization used by `save_session`
(request.py:420-421), which is the external pickle library, not part of this
repository's sources — spec section 4.3: "binary-serialize/deserialize entire
facade state".  The opaque blob is modelled as carrying the full session
state. -/
def pickle_dump (s : SessionPickleState) : SessionPickleState := s

/-- Modelled from the spec: the deserialization used by `load_session`
(request.py:445), inverse of the serialization. -/
def pickle_load (blob : SessionPickleState) : SessionPickleState := blob

/-- Function `save_session` (request.py:414-422): serialize the session state
to the file. -/
def save_session (s : SessionPickleState) : SessionPickleState := pickle_dump s

/-- Function `load_session` (request.py:424-447): construct a fresh instance
with the given constructor arguments, then replace it wholesale by the
deserialized object — the freshly constructed instance is discarded
(request.py:443-445). -/
def load_session (fresh blob : SessionPickleState) : SessionPickleState :=
  pickle_load blob

/-- Claim C5: a `save_session` followed by `load_session` on the same path
restores the header map, the cookie jar and the retry configuration
identically (indeed the whole modelled state), whatever fresh instance
`load_session` constructs before unpickling. -/
theorem C5_save_load_round_trip (fresh s : SessionPickleState) :
    (load_session fresh (save_session s)).headers = s.headers ∧
    (load_session fresh (save_session s)).cookies = s.cookies ∧
    (load_session fresh (save_session s)).adapters = s.adapters ∧
    load_session fresh (save_session s) = s :=
  ⟨rfl, rfl, rfl, rfl⟩

/-- Python error raised during `update_cookies`. -/
inductive PyError where
  | typeError (msg : String)
deriving Repr, DecidableEq

/-- Behaviour of the checks at request.py:270 and request.py:272, which call
isinstance with the parameterized generics written there: in Python, passing a
parameterized generic as the second argument of isinstance raises a TypeError
unconditionally, before any branch of the caller is taken. -/
def isinstance_parameterized_generic {α : Type} (_x : α) : Except PyError Bool :=
  .error (.typeError "isinstance() argument 2 cannot be a parameterized generic")

/-- Function `update_cookies` (request.py:269-277), with both cookie input
shapes (mapping with name/value keys, or Cookie record) normalized to Cookie
records: the intended branches merge the pairs into the session cookie jar
with last-write-wins, but the very first isinstance test raises before any of
them is reached. -/
def update_cookies (s : SessionPickleState) (cookies : List Cookie) :
    Except PyError SessionPickleState := do
  let merged := dict_update s.cookies (cookies.map (fun c => (c.name, c.value)))
  let is_list_dict ← isinstance_parameterized_generic cookies
  if is_list_dict then
    pure { s with cookies := merged }
  else do
    let is_list_cookie ← isinstance_parameterized_generic cookies
    if is_list_cookie then
      pure { s with cookies := merged }
    else
      pure s

/-- Claim C6 (refuted by the code): every call of `update_cookies` raises
TypeError, because the isinstance checks are given parameterized generics; no
merge into the cookie jar ever happens, for either input shape. -/
theorem C6_update_cookies_always_raises (s : SessionPickleState)
    (cookies : List Cookie) :
    update_cookies s cookies =
      .error (.typeError
        "isinstance() argument 2 cannot be a parameterized generic") := rfl

end AkRequests
